import Mathlib

/-!
# Verification of the Simple Stop Loss Optimizer

Shallow embedding of `src/Simple_Stop_Loss_Optimizer.py` (the core analysis
routine `analyze_stop_loss`, lines 82–192) over exact rational arithmetic.
Rows carry four possibly-missing numeric fields; the valid trade set is the
subset of rows where all four are present.  Thresholds are resolved by
nearest-rank order-statistic lookup into the ascending-sorted adverse
excursion values, each threshold is replayed over every valid trade, and the
best result is selected by Python `max` semantics (first occurrence wins ties).
-/

/-- One raw input row after numeric coercion (`pd.to_numeric(..., errors='coerce')`,
lines 82–85): each of the four required fields is present (`some`) or missing
(`none`). -/
structure RawTrade where
  mae : Option ℚ
  shares : Option ℚ
  price : Option ℚ
  profit : Option ℚ

/-- One valid trade: all four fields present and numeric (the rows selected by
`valid_mask`, line 88). -/
structure Trade where
  mae : ℚ
  shares : ℚ
  price : ℚ
  profit : ℚ

/-- A raw row passes validation iff all four fields are present
(`mae_series.notna() & shares_series.notna() & price_series.notna() & profit_series.notna()`,
line 88). -/
def toTrade (r : RawTrade) : Option Trade :=
  match r.mae, r.shares, r.price, r.profit with
  | some m, some s, some p, some pr => some ⟨m, s, p, pr⟩
  | _, _, _, _ => none

/-- The valid trade set: rows where all four required values are simultaneously
present (lines 88–98). -/
def validTrades (rows : List RawTrade) : List Trade :=
  rows.filterMap toTrade

/-- `pandas.Series.sum()`: left fold of addition starting from 0 (line 101). -/
def seriesSum (l : List ℚ) : ℚ :=
  l.foldl (· + ·) 0

/-- `pandas.Series.mean()`: sum divided by length (lines 102–103). -/
def seriesMean (l : List ℚ) : ℚ :=
  seriesSum l / l.length

/-- `baseline_total_profit = float(profit_valid.sum())` (line 101). -/
def baseline_total_profit (trades : List Trade) : ℚ :=
  seriesSum (trades.map (·.profit))

/-- `baseline_win_rate = float((profit_valid > 0).mean()) * 100` (line 102):
the mean of the 0/1 indicator of strictly positive profit, times 100. -/
def baseline_win_rate (trades : List Trade) : ℚ :=
  seriesMean (trades.map fun t => if 0 < t.profit then 1 else 0) * 100

/-- `mae_sorted = mae_valid.sort_values()` (line 107): ascending sort of the
adverse-excursion values, most negative first. -/
def sortAsc (maes : List ℚ) : List ℚ :=
  List.insertionSort (· ≤ ·) maes

/-- Python's `int()` applied to a real value: truncation toward zero. -/
def pyInt (q : ℚ) : ℤ :=
  if 0 ≤ q then ⌊q⌋ else ⌈q⌉

/-- `threshold_idx = max(0, int(len(mae_sorted) * (pct / 100.0)) - 1)` (line 128). -/
def threshold_idx (n : ℕ) (pct : ℚ) : ℕ :=
  (max 0 (pyInt ((n : ℚ) * (pct / 100)) - 1)).toNat

/-- `mae_threshold = mae_sorted.iloc[threshold_idx]` (lines 128–129): sort the
valid adverse-excursion values ascending and look up the nearest-rank index;
`none` models an out-of-bounds `iloc` (an `IndexError`). -/
def maeThreshold (maes : List ℚ) (pct : ℚ) : Option ℚ :=
  (sortAsc maes)[threshold_idx (sortAsc maes).length pct]?

/-- Accumulator of the replay loop (lines 132–134). -/
structure ReplayAcc where
  simulated_profit_total : ℚ
  stopped_count : ℕ
  win_count : ℕ
deriving DecidableEq

/-- One iteration of the replay loop (lines 136–154): if the trade's actual MAE
is strictly below the threshold it is stopped out at
`shares * entry_price * mae_threshold / 100`, counting as a win when that
amount is positive; otherwise the actual profit is kept, counting as a win
when it is positive. -/
def replayStep (thr : ℚ) (acc : ReplayAcc) (t : Trade) : ReplayAcc :=
  if t.mae < thr then
    { simulated_profit_total := acc.simulated_profit_total + t.shares * t.price * thr / 100
      stopped_count := acc.stopped_count + 1
      win_count := acc.win_count + if 0 < t.shares * t.price * thr / 100 then 1 else 0 }
  else
    { simulated_profit_total := acc.simulated_profit_total + t.profit
      stopped_count := acc.stopped_count
      win_count := acc.win_count + if 0 < t.profit then 1 else 0 }

/-- The full replay of one resolved threshold over the valid trade set
(lines 132–154). -/
def replay (trades : List Trade) (thr : ℚ) : ReplayAcc :=
  trades.foldl (replayStep thr) ⟨0, 0, 0⟩

/-- Specification-side simulated outcome of a single trade under a threshold:
the stop-loss amount when stopped, the actual profit otherwise (§4.4 of the
design). -/
def simOutcome (thr : ℚ) (t : Trade) : ℚ :=
  if t.mae < thr then t.shares * t.price * thr / 100 else t.profit

/-- One record of `stop_loss_results` (lines 172–179). -/
structure ThresholdResult where
  mae_threshold : ℚ
  percentile : ℚ
  total_profit : ℚ
  delta : ℚ
  stopped_count : ℕ
  win_rate : ℚ
deriving DecidableEq

/-- One comparison step of Python's `max(..., key=lambda x: x['total_profit'])`:
the incumbent is replaced only when the challenger's key is strictly larger,
so the first of several maximal elements survives. -/
def pyMaxStep (b y : ThresholdResult) : ThresholdResult :=
  if b.total_profit < y.total_profit then y else b

/-- `best_result = max(stop_loss_results, key=lambda x: x['total_profit'])`
(line 182); `none` models the `ValueError` Python raises on an empty sequence. -/
def pyMax : List ThresholdResult → Option ThresholdResult
  | [] => none
  | x :: xs => some (xs.foldl pyMaxStep x)

/-- Builds the `ThresholdResult` for one percentile (lines 126–179): resolve
the threshold, replay, and package totals, delta vs baseline and win rate.
`Except.error` models the `IndexError` of an out-of-bounds threshold lookup. -/
def mkResult (trades : List Trade) (base : ℚ) (pct : ℚ) : Except String ThresholdResult :=
  match maeThreshold (trades.map (·.mae)) pct with
  | none => .error "IndexError"
  | some thr =>
      let r := replay trades thr
      .ok { mae_threshold := thr
            percentile := pct
            total_profit := r.simulated_profit_total
            delta := r.simulated_profit_total - base
            stopped_count := r.stopped_count
            win_rate := (r.win_count : ℚ) / trades.length * 100 }

/-- Everything `analyze_stop_loss` computes and hands to the reporter. -/
structure AnalysisOutput where
  baseline_total : ℚ
  baseline_win : ℚ
  trade_count : ℕ
  results : List ThresholdResult
  best : ThresholdResult

/-- The core of `analyze_stop_loss` (lines 82–192): validate (zero valid rows
is reported as an error and aborts with no baseline or threshold computation,
lines 91–93), compute baseline metrics, one result per requested percentile in
order, and the best result. -/
def analyze (rows : List RawTrade) (pcts : List ℚ) : Except String AnalysisOutput :=
  let trades := validTrades rows
  if trades.length = 0 then
    .error "No valid data found"
  else
    let base := baseline_total_profit trades
    match pcts.mapM (mkResult trades base) with
    | .error e => .error e
    | .ok results =>
        match pyMax results with
        | none => .error "ValueError"
        | some best =>
            .ok { baseline_total := base
                  baseline_win := baseline_win_rate trades
                  trade_count := trades.length
                  results := results
                  best := best }

/-! ## Helper lemmas -/

theorem seriesSum_eq_sum_aux (l : List ℚ) : ∀ a : ℚ, l.foldl (· + ·) a = a + l.sum := by
  induction l with
  | nil => intro a; simp
  | cons x xs ih => intro a; simp [ih, add_assoc]

theorem seriesSum_eq_sum (l : List ℚ) : seriesSum l = l.sum := by
  simp [seriesSum, seriesSum_eq_sum_aux]

theorem length_filter_eq_sum_ind (p : Trade → Prop) [DecidablePred p] (l : List Trade) :
    (l.filter fun t => decide (p t)).length = (l.map fun t => if p t then (1 : ℕ) else 0).sum := by
  induction l with
  | nil => simp
  | cons x xs ih =>
    by_cases h : p x <;> simp [List.filter_cons, h, ih] <;> omega

theorem replayStep_eq (thr : ℚ) (acc : ReplayAcc) (t : Trade) :
    replayStep thr acc t =
      ⟨acc.simulated_profit_total + simOutcome thr t,
       acc.stopped_count + if t.mae < thr then 1 else 0,
       acc.win_count + if 0 < simOutcome thr t then 1 else 0⟩ := by
  unfold replayStep simOutcome
  by_cases h : t.mae < thr <;> simp [h]

theorem foldl_replayStep (thr : ℚ) :
    ∀ (ts : List Trade) (acc : ReplayAcc),
      ts.foldl (replayStep thr) acc =
        ⟨acc.simulated_profit_total + (ts.map (simOutcome thr)).sum,
         acc.stopped_count + (ts.map fun t => if t.mae < thr then (1 : ℕ) else 0).sum,
         acc.win_count + (ts.map fun t => if 0 < simOutcome thr t then (1 : ℕ) else 0).sum⟩ := by
  intro ts
  induction ts with
  | nil => intro acc; simp
  | cons t ts ih =>
    intro acc
    rw [List.foldl_cons, replayStep_eq, ih]
    simp [add_assoc]

theorem replay_eq_spec (trades : List Trade) (thr : ℚ) :
    replay trades thr =
      ⟨(trades.map (simOutcome thr)).sum,
       (trades.filter fun t => decide (t.mae < thr)).length,
       (trades.filter fun t => decide (0 < simOutcome thr t)).length⟩ := by
  rw [replay, foldl_replayStep]
  simp [length_filter_eq_sum_ind (fun t => t.mae < thr),
        length_filter_eq_sum_ind (fun t => 0 < simOutcome thr t)]

/-! ## C1: replay correctness -/

/-- C1: for every trade set and threshold, a trade with adverse excursion
strictly below the threshold contributes `shares * entry_price * mae_threshold / 100`
(the trades so stopped are exactly the ones counted in `stopped_count`), any
other trade contributes its actual profit unchanged, `simulated_profit_total`
is the sum of all simulated outcomes, and `win_count` counts exactly the
trades, stopped or not, whose simulated outcome is strictly positive. -/
theorem C1_replay_correct (trades : List Trade) (thr : ℚ) :
    (replay trades thr).simulated_profit_total =
        (trades.map fun t =>
          if t.mae < thr then t.shares * t.price * thr / 100 else t.profit).sum ∧
    (replay trades thr).stopped_count = (trades.filter fun t => decide (t.mae < thr)).length ∧
    (replay trades thr).win_count =
        (trades.filter fun t => decide (0 < simOutcome thr t)).length := by
  rw [replay_eq_spec]
  exact ⟨rfl, rfl, rfl⟩

/-! ## C4: no-op threshold -/

/-- C4: when the threshold is strictly more negative than every valid trade's
adverse excursion, no trade is stopped and the simulated total equals the
baseline total profit. -/
theorem C4_noop_threshold (trades : List Trade) (thr : ℚ)
    (h : ∀ t ∈ trades, thr < t.mae) :
    (replay trades thr).stopped_count = 0 ∧
    (replay trades thr).simulated_profit_total = baseline_total_profit trades := by
  rw [replay_eq_spec]
  constructor
  · simp only [List.length_eq_zero, List.filter_eq_nil_iff]
    intro t ht
    simp [not_lt.mpr (le_of_lt (h t ht))]
  · rw [baseline_total_profit, seriesSum_eq_sum]
    simp only
    congr 1
    apply List.map_congr_left
    intro t ht
    simp [simOutcome, not_lt.mpr (le_of_lt (h t ht))]

/-- Witness for C4 at a concrete input: one trade with adverse excursion `-1`
and a threshold of `-2`. -/
theorem C4_noop_threshold_witness :
    (∀ t ∈ [(⟨-1, 100, 50, -30⟩ : Trade)], (-2 : ℚ) < t.mae) ∧
    ((replay [(⟨-1, 100, 50, -30⟩ : Trade)] (-2)).stopped_count = 0 ∧
     (replay [(⟨-1, 100, 50, -30⟩ : Trade)] (-2)).simulated_profit_total =
       baseline_total_profit [(⟨-1, 100, 50, -30⟩ : Trade)]) := by
  have h : ∀ t ∈ [(⟨-1, 100, 50, -30⟩ : Trade)], (-2 : ℚ) < t.mae := by
    intro t ht
    simp only [List.mem_singleton] at ht
    subst ht
    norm_num
  exact ⟨h, C4_noop_threshold _ _ h⟩

/-! ## C6: baseline metrics -/

theorem sum_ind_eq_length_filter (p : Trade → Prop) [DecidablePred p] (l : List Trade) :
    (l.map fun t => if p t then (1 : ℚ) else 0).sum =
      ((l.filter fun t => decide (p t)).length : ℚ) := by
  induction l with
  | nil => simp
  | cons x xs ih =>
    by_cases h : p x <;> simp [List.filter_cons, h, ih] <;> push_cast <;> ring

/-- C6 counterexample: for the single winning trade below, the code's
`baseline_win_rate` is `100` (a percentage), while the claim's
`count(actual_profit > 0) / count` is `1`; the two differ. -/
theorem C6_counterexample :
    baseline_win_rate [(⟨-1, 1, 1, 5⟩ : Trade)] = 100 ∧
    ((List.filter (fun t => decide (0 < t.profit)) [(⟨-1, 1, 1, 5⟩ : Trade)]).length : ℚ) /
        (([(⟨-1, 1, 1, 5⟩ : Trade)].length : ℚ)) = 1 ∧
    (100 : ℚ) ≠ 1 := by
  refine ⟨?_, ?_, by norm_num⟩
  · simp only [baseline_win_rate, seriesMean, seriesSum, List.map_cons, List.map_nil]
    norm_num
  · norm_num [List.filter_cons]

/-- C6 (amended): `baseline_total_profit` is the exact sum of the valid trades'
actual profits, and `baseline_win_rate` equals the fraction of valid trades with
strictly positive actual profit multiplied by 100 (a percentage). -/
theorem C6_baseline_correct (trades : List Trade) :
    baseline_total_profit trades = (trades.map (·.profit)).sum ∧
    baseline_win_rate trades =
      ((trades.filter fun t => decide (0 < t.profit)).length : ℚ) / (trades.length : ℚ) * 100 := by
  constructor
  · exact seriesSum_eq_sum _
  · rw [baseline_win_rate, seriesMean, seriesSum_eq_sum,
        sum_ind_eq_length_filter (fun t => 0 < t.profit)]
    simp

/-! ## Threshold resolution: index bounds, nearest rank, monotonicity -/

theorem pyInt_of_nonneg (q : ℚ) (h : 0 ≤ q) : pyInt q = ⌊q⌋ := if_pos h

theorem floor_mul_pct_le (n : ℕ) (p : ℚ) (h1 : p ≤ 100) :
    ⌊(n : ℚ) * (p / 100)⌋ ≤ (n : ℤ) := by
  have hle : (n : ℚ) * (p / 100) ≤ (n : ℚ) := by
    have : p / 100 ≤ 1 := by
      rw [div_le_one (by norm_num : (0 : ℚ) < 100)]
      exact h1
    calc (n : ℚ) * (p / 100) ≤ (n : ℚ) * 1 :=
          mul_le_mul_of_nonneg_left this (by positivity)
      _ = (n : ℚ) := mul_one _
  calc ⌊(n : ℚ) * (p / 100)⌋ ≤ ⌊(n : ℚ)⌋ := Int.floor_mono hle
    _ = (n : ℤ) := Int.floor_natCast n

theorem threshold_idx_lt (n : ℕ) (p : ℚ) (h1 : p ≤ 100) (hn : 0 < n) :
    threshold_idx n p < n := by
  unfold threshold_idx
  rcases le_or_lt 0 ((n : ℚ) * (p / 100)) with harg | harg
  · rw [pyInt_of_nonneg _ harg]
    have := floor_mul_pct_le n p h1
    omega
  · rw [pyInt, if_neg (not_le.mpr harg)]
    have : ⌈(n : ℚ) * (p / 100)⌉ ≤ 0 := by
      rw [Int.ceil_le]
      exact_mod_cast le_of_lt harg
    omega

theorem threshold_idx_mono (n : ℕ) (p1 p2 : ℚ) (h0 : 0 < p1) (h12 : p1 ≤ p2) :
    threshold_idx n p1 ≤ threshold_idx n p2 := by
  unfold threshold_idx
  have hargs : (n : ℚ) * (p1 / 100) ≤ (n : ℚ) * (p2 / 100) := by gcongr
  have harg1 : (0 : ℚ) ≤ (n : ℚ) * (p1 / 100) := by positivity
  have harg2 : (0 : ℚ) ≤ (n : ℚ) * (p2 / 100) := le_trans harg1 hargs
  rw [pyInt_of_nonneg _ harg1, pyInt_of_nonneg _ harg2]
  have hmono : ⌊(n : ℚ) * (p1 / 100)⌋ ≤ ⌊(n : ℚ) * (p2 / 100)⌋ := Int.floor_mono hargs
  omega

theorem sortAsc_length (maes : List ℚ) : (sortAsc maes).length = maes.length := by
  simp [sortAsc]

/-! ## C10: index safety -/

/-- C10: for every non-empty valid trade set and percentile in `(0, 100]`, the
computed nearest-rank index is strictly below the number of trades, so the
order-statistic lookup always succeeds. -/
theorem C10_index_in_bounds (maes : List ℚ) (p : ℚ) (h0 : 0 < p) (h1 : p ≤ 100)
    (hn : 0 < maes.length) :
    threshold_idx (sortAsc maes).length p < maes.length ∧
    (maeThreshold maes p).isSome := by
  have hlen : (sortAsc maes).length = maes.length := sortAsc_length maes
  have hidx : threshold_idx (sortAsc maes).length p < (sortAsc maes).length :=
    threshold_idx_lt _ p h1 (by omega)
  refine ⟨by omega, ?_⟩
  rw [maeThreshold, List.getElem?_eq_getElem hidx]
  rfl

/-- Witness for C10 at the concrete input `maes = [-5, -1, -2]`, `p = 50`. -/
theorem C10_index_in_bounds_witness :
    (0 : ℚ) < 50 ∧ (50 : ℚ) ≤ 100 ∧ 0 < ([-5, -1, -2] : List ℚ).length ∧
    (threshold_idx (sortAsc [-5, -1, -2]).length 50 < ([-5, -1, -2] : List ℚ).length ∧
     (maeThreshold [-5, -1, -2] 50).isSome) :=
  ⟨by norm_num, by norm_num, by norm_num,
   C10_index_in_bounds [-5, -1, -2] 50 (by norm_num) (by norm_num) (by norm_num)⟩

/-! ## C2: nearest-rank percentile -/

/-- C2: for a non-empty trade set and percentile in `(0, 100]`, the resolved
threshold is the entry of the ascending-sorted adverse-excursion values at the
0-based index `max 0 (⌊n * p / 100⌋ - 1)`, and is therefore a value that occurs
in the dataset. -/
theorem C2_nearest_rank (maes : List ℚ) (p : ℚ) (h0 : 0 < p) (h1 : p ≤ 100)
    (hn : 0 < maes.length) :
    maeThreshold maes p =
      (sortAsc maes)[(max 0 (⌊(maes.length : ℚ) * p / 100⌋ - 1)).toNat]? ∧
    ∃ t, maeThreshold maes p = some t ∧ t ∈ maes := by
  have hlen : (sortAsc maes).length = maes.length := sortAsc_length maes
  have hidx : threshold_idx (sortAsc maes).length p < (sortAsc maes).length :=
    threshold_idx_lt _ p h1 (by omega)
  have harg : (0 : ℚ) ≤ ((sortAsc maes).length : ℚ) * (p / 100) := by positivity
  constructor
  · rw [maeThreshold]
    congr 1
    unfold threshold_idx
    rw [pyInt_of_nonneg _ harg, hlen, mul_div_assoc]
  · refine ⟨(sortAsc maes).get ⟨threshold_idx (sortAsc maes).length p, hidx⟩, ?_, ?_⟩
    · rw [maeThreshold, List.getElem?_eq_getElem hidx]
      rfl
    · have hmem : (sortAsc maes).get ⟨threshold_idx (sortAsc maes).length p, hidx⟩ ∈
          sortAsc maes := List.get_mem _ _ hidx
      unfold sortAsc at hmem
      exact (List.mem_insertionSort _).mp hmem

/-- Witness for C2 at the concrete input `maes = [-5, -1, -2]`, `p = 50`. -/
theorem C2_nearest_rank_witness :
    (0 : ℚ) < 50 ∧ (50 : ℚ) ≤ 100 ∧ 0 < ([-5, -1, -2] : List ℚ).length ∧
    (maeThreshold [-5, -1, -2] 50 =
      (sortAsc [-5, -1, -2])[(max 0 (⌊(([-5, -1, -2] : List ℚ).length : ℚ) * 50 / 100⌋ - 1)).toNat]? ∧
     ∃ t, maeThreshold [-5, -1, -2] 50 = some t ∧ t ∈ ([-5, -1, -2] : List ℚ)) :=
  ⟨by norm_num, by norm_num, by norm_num,
   C2_nearest_rank [-5, -1, -2] 50 (by norm_num) (by norm_num) (by norm_num)⟩

/-! ## C5: threshold monotonicity -/

/-- C5: for percentiles `p1 < p2` in `(0, 100]` over a non-empty trade set, the
resolved thresholds are monotone: `mae_threshold(p1) ≤ mae_threshold(p2)`. -/
theorem C5_threshold_monotone (maes : List ℚ) (p1 p2 : ℚ) (h0 : 0 < p1) (h12 : p1 < p2)
    (h2 : p2 ≤ 100) (hn : 0 < maes.length) (t1 t2 : ℚ)
    (e1 : maeThreshold maes p1 = some t1) (e2 : maeThreshold maes p2 = some t2) :
    t1 ≤ t2 := by
  have hsorted : List.Sorted (· ≤ ·) (sortAsc maes) := List.sorted_insertionSort _ maes
  have hmono : threshold_idx (sortAsc maes).length p1 ≤ threshold_idx (sortAsc maes).length p2 :=
    threshold_idx_mono _ p1 p2 h0 (le_of_lt h12)
  rw [maeThreshold] at e1 e2
  obtain ⟨hb1, he1⟩ := List.getElem?_eq_some_iff.mp e1
  obtain ⟨hb2, he2⟩ := List.getElem?_eq_some_iff.mp e2
  have hrel := hsorted.rel_get_of_le
    (a := ⟨threshold_idx (sortAsc maes).length p1, hb1⟩)
    (b := ⟨threshold_idx (sortAsc maes).length p2, hb2⟩)
    (by exact hmono)
  simpa [List.get_eq_getElem, he1, he2] using hrel

/-- Witness for C5 at the concrete input `maes = [-5, -1, -2]`, `p1 = 50`,
`p2 = 100`: the resolved thresholds are `-5` and `-1`. -/
theorem C5_threshold_monotone_witness :
    maeThreshold [-5, -1, -2] 50 = some (-5) ∧
    maeThreshold [-5, -1, -2] 100 = some (-1) ∧
    (-5 : ℚ) ≤ -1 := by
  have e1 : maeThreshold [-5, -1, -2] 50 = some (-5) := by
    simp only [maeThreshold, sortAsc, List.insertionSort, List.orderedInsert]
    norm_num [threshold_idx, pyInt]
  have e2 : maeThreshold [-5, -1, -2] 100 = some (-1) := by
    simp only [maeThreshold, sortAsc, List.insertionSort, List.orderedInsert]
    norm_num [threshold_idx, pyInt]
    rfl
  exact ⟨e1, e2,
    C5_threshold_monotone [-5, -1, -2] 50 100 (by norm_num) (by norm_num) (by norm_num)
      (by norm_num) (-5) (-1) e1 e2⟩

/-! ## C9: percentile validation -/

/-- C9 counterexample: at the out-of-range percentile `p = -50` over the
dataset `[-2]`, the threshold resolver does not fail at all — it silently
clamps the index to `0` and returns `-2`; no `InvalidPercentileError` exists
in the code. -/
theorem C9_counterexample : maeThreshold [(-2 : ℚ)] (-50) = some (-2) := by
  have hceil : ⌈(-(1 / 2) : ℚ)⌉ = 0 := by
    rw [Int.ceil_eq_zero_iff]
    constructor <;> norm_num
  simp only [maeThreshold, sortAsc, List.insertionSort, List.orderedInsert, threshold_idx, pyInt]
  norm_num [hceil]

/-- C9 (amended): the threshold resolver performs no percentile validation.
For every `p ≤ 0` it silently clamps the computed index to `0` and returns the
most negative sorted adverse-excursion value instead of failing. -/
theorem C9_amended_silent_clamp (maes : List ℚ) (p : ℚ) (hp : p ≤ 0) :
    threshold_idx (sortAsc maes).length p = 0 ∧
    maeThreshold maes p = (sortAsc maes)[0]? := by
  have harg : ((sortAsc maes).length : ℚ) * (p / 100) ≤ 0 := by
    have hdiv : p / 100 ≤ 0 := by
      apply div_nonpos_of_nonpos_of_nonneg hp
      norm_num
    have hcast : (0 : ℚ) ≤ ((sortAsc maes).length : ℚ) := by positivity
    exact mul_nonpos_of_nonneg_of_nonpos hcast hdiv
  have hidx : threshold_idx (sortAsc maes).length p = 0 := by
    unfold threshold_idx pyInt
    split
    · have h1 : ⌊((sortAsc maes).length : ℚ) * (p / 100)⌋ ≤ 0 := by
        calc ⌊((sortAsc maes).length : ℚ) * (p / 100)⌋ ≤ ⌊(0 : ℚ)⌋ := Int.floor_mono harg
          _ = 0 := Int.floor_zero
      omega
    · have h1 : ⌈((sortAsc maes).length : ℚ) * (p / 100)⌉ ≤ 0 := by
        rw [Int.ceil_le]
        exact_mod_cast harg
      omega
  exact ⟨hidx, by rw [maeThreshold, hidx]⟩

/-- Witness for the amended C9 at the concrete input `maes = [-2]`, `p = -50`. -/
theorem C9_amended_silent_clamp_witness :
    (-50 : ℚ) ≤ 0 ∧
    (threshold_idx (sortAsc [(-2 : ℚ)]).length (-50) = 0 ∧
     maeThreshold [(-2 : ℚ)] (-50) = (sortAsc [(-2 : ℚ)])[0]?) :=
  ⟨by norm_num, C9_amended_silent_clamp [(-2 : ℚ)] (-50) (by norm_num)⟩

/-! ## C8: empty valid data -/

/-- C8: when zero rows have all four required fields present and numeric, the
analysis reports the empty-data error and aborts: no baseline or threshold
computation is attempted and no output record is produced. -/
theorem C8_empty_valid_data (rows : List RawTrade) (pcts : List ℚ)
    (h : validTrades rows = []) :
    analyze rows pcts = .error "No valid data found" ∧
    ∀ out : AnalysisOutput, analyze rows pcts ≠ .ok out := by
  have hz : (validTrades rows).length = 0 := by rw [h]; rfl
  constructor
  · rw [analyze]
    simp [hz]
  · intro out
    rw [analyze]
    simp [hz]

/-- Witness for C8: a single row whose adverse-excursion field is missing. -/
theorem C8_empty_valid_data_witness :
    validTrades [({ mae := none, shares := some 1, price := some 1, profit := some 1 } : RawTrade)] = [] ∧
    (analyze [({ mae := none, shares := some 1, price := some 1, profit := some 1 } : RawTrade)] [50] =
        .error "No valid data found" ∧
     ∀ out : AnalysisOutput,
        analyze [({ mae := none, shares := some 1, price := some 1, profit := some 1 } : RawTrade)] [50] ≠
          .ok out) := by
  have h : validTrades [({ mae := none, shares := some 1, price := some 1, profit := some 1 } : RawTrade)] = [] := by
    simp [validTrades, toTrade]
  exact ⟨h, C8_empty_valid_data _ [50] h⟩

/-! ## C3: best-result selection -/

theorem foldl_pyMaxStep_spec :
    ∀ (xs : List ThresholdResult) (b : ThresholdResult),
      (xs.foldl pyMaxStep b = b ∧ ∀ y ∈ xs, y.total_profit ≤ b.total_profit) ∨
      (∃ l₁ l₂, xs = l₁ ++ (xs.foldl pyMaxStep b) :: l₂ ∧
        b.total_profit < (xs.foldl pyMaxStep b).total_profit ∧
        (∀ y ∈ l₁, y.total_profit < (xs.foldl pyMaxStep b).total_profit) ∧
        (∀ y ∈ l₂, y.total_profit ≤ (xs.foldl pyMaxStep b).total_profit))
  | [], b => Or.inl ⟨rfl, by simp⟩
  | x :: xs, b => by
    rw [List.foldl_cons]
    by_cases h : b.total_profit < x.total_profit
    · rw [show pyMaxStep b x = x from if_pos h]
      rcases foldl_pyMaxStep_spec xs x with ⟨heq, hall⟩ | ⟨l₁, l₂, heq, hlt, hl₁, hl₂⟩
      · right
        refine ⟨[], xs, ?_, ?_, by simp, ?_⟩
        · rw [heq]
          simp
        · rw [heq]
          exact h
        · intro y hy
          rw [heq]
          exact hall y hy
      · right
        refine ⟨x :: l₁, l₂, ?_, ?_, ?_, hl₂⟩
        · conv_lhs => rw [heq]
          simp
        · exact lt_trans h hlt
        · intro y hy
          rcases List.mem_cons.mp hy with rfl | hy
          · exact hlt
          · exact hl₁ y hy
    · rw [show pyMaxStep b x = b from if_neg h]
      rcases foldl_pyMaxStep_spec xs b with ⟨heq, hall⟩ | ⟨l₁, l₂, heq, hlt, hl₁, hl₂⟩
      · left
        refine ⟨heq, ?_⟩
        intro y hy
        rcases List.mem_cons.mp hy with rfl | hy
        · exact not_lt.mp h
        · exact hall y hy
      · right
        refine ⟨x :: l₁, l₂, ?_, hlt, ?_, hl₂⟩
        · conv_lhs => rw [heq]
          simp
        · intro y hy
          rcases List.mem_cons.mp hy with rfl | hy
          · exact lt_of_le_of_lt (not_lt.mp h) hlt
          · exact hl₁ y hy

/-- C3: for every non-empty result sequence, the selected best result's
`simulated_total_profit` is greater than or equal to every other result's, and
every result occurring before the selected one is strictly smaller — so among
ties for the maximum the first occurrence in input order is selected. -/
theorem C3_best_selection (results : List ThresholdResult) (h : results ≠ []) :
    ∃ best l₁ l₂, pyMax results = some best ∧
      results = l₁ ++ best :: l₂ ∧
      (∀ r ∈ results, r.total_profit ≤ best.total_profit) ∧
      (∀ r ∈ l₁, r.total_profit < best.total_profit) := by
  match results, h with
  | x :: xs, _ =>
    rcases foldl_pyMaxStep_spec xs x with ⟨heq, hall⟩ | ⟨l₁, l₂, heq, hlt, hl₁, hl₂⟩
    · refine ⟨x, [], xs, ?_, by simp, ?_, by simp⟩
      · rw [pyMax, heq]
      · intro r hr
        rcases List.mem_cons.mp hr with rfl | hr
        · exact le_refl _
        · exact hall r hr
    · refine ⟨xs.foldl pyMaxStep x, x :: l₁, l₂, rfl, ?_, ?_, ?_⟩
      · conv_lhs => rw [heq]
        simp
      · intro r hr
        rcases List.mem_cons.mp hr with rfl | hr
        · exact le_of_lt hlt
        · rw [heq] at hr
          rcases List.mem_append.mp hr with hr | hr
          · exact le_of_lt (hl₁ r hr)
          · rcases List.mem_cons.mp hr with rfl | hr
            · exact le_refl _
            · exact hl₂ r hr
      · intro r hr
        rcases List.mem_cons.mp hr with rfl | hr
        · exact hlt
        · exact hl₁ r hr

/-- Witness for C3 at a concrete two-element result list. -/
theorem C3_best_selection_witness :
    ([(⟨0, 0, 3, 0, 0, 0⟩ : ThresholdResult), ⟨0, 0, 7, 0, 0, 0⟩] : List ThresholdResult) ≠ [] ∧
    (∃ best l₁ l₂,
      pyMax [(⟨0, 0, 3, 0, 0, 0⟩ : ThresholdResult), ⟨0, 0, 7, 0, 0, 0⟩] = some best ∧
      [(⟨0, 0, 3, 0, 0, 0⟩ : ThresholdResult), ⟨0, 0, 7, 0, 0, 0⟩] = l₁ ++ best :: l₂ ∧
      (∀ r ∈ [(⟨0, 0, 3, 0, 0, 0⟩ : ThresholdResult), ⟨0, 0, 7, 0, 0, 0⟩],
          r.total_profit ≤ best.total_profit) ∧
      (∀ r ∈ l₁, r.total_profit < best.total_profit)) :=
  ⟨by simp, C3_best_selection _ (by simp)⟩
